import Mathlib

/-!
# Vane PTY layer (`native/src/pty.c`)

A shallow embedding of the pseudo-terminal session functions of `pty.c`.

* The handle structure `vane_pty_t` is a Lean structure with the two `int`-sized fields.
* Every function takes the outcomes of the system calls it makes as explicit
  arguments (what the kernel returned, `errno`, the bytes placed in a buffer) and returns
  its result, the updated handle where it mutates it, and the list of system calls it
  issued, in program order.
* An `IO` result built with `lean_io_result_mk_error (lean_mk_io_user_error s)` is
  `Except.error s`; one built with `lean_io_result_mk_ok v` is `Except.ok v`.
* Constants and functions that come from the system headers (`EAGAIN`, `POLLIN`,
  `strerror`, ...) are the fields of `Libc`.
* The `termios` attributes handed to `forkpty` are not part of the model.
-/

namespace Vane

/-- One byte of a `ByteArray`. -/
abbrev Byte := Fin 256

deriving instance DecidableEq for Except

/-- The constants and libc functions `pty.c` takes from the system headers. -/
structure Libc where
  EAGAIN : Int
  EWOULDBLOCK : Int
  POLLIN : Nat
  O_NONBLOCK : Nat
  SIGHUP : Int
  WNOHANG : Int
  strerror : Int → String

/-- The values of the macOS headers the file is written for, with a few `strerror` texts. -/
def darwin : Libc where
  EAGAIN := 35
  EWOULDBLOCK := 35
  POLLIN := 1
  O_NONBLOCK := 4
  SIGHUP := 1
  WNOHANG := 1
  strerror := fun e =>
    if e = 5 then "Input/output error"
    else if e = 9 then "Bad file descriptor"
    else if e = 12 then "Cannot allocate memory"
    else if e = 25 then "Inappropriate ioctl for device"
    else if e = 35 then "Resource temporarily unavailable"
    else "Unknown error"

/-- The C `struct winsize`; every field is an `unsigned short`. -/
structure winsize where
  ws_row : Nat
  ws_col : Nat
  ws_xpixel : Nat
  ws_ypixel : Nat
  deriving DecidableEq, Repr

/-- The PTY handle structure: master descriptor and shell PID. -/
structure vane_pty_t where
  master_fd : Int
  child_pid : Int
  deriving DecidableEq, Repr

/-- A system call issued by the code, with the arguments the code passed and, where the
later semantics of the kernel depends on it, the value the kernel returned. -/
inductive Syscall where
  | forkpty (ws : winsize)
  | setenv (name value : String)
  | execlp (file arg0 arg1 : String)
  | exit (status : Int)
  | fcntl_GETFL (fd : Int)
  | fcntl_SETFL (fd : Int) (flags : Nat) (ret : Int)
  | read (fd : Int) (count : Nat)
  | write (fd : Int) (buf : List Byte) (ret : Int)
  | ioctl_TIOCSWINSZ (fd : Int) (ws : winsize) (ret : Int)
  | poll (fd : Int) (events : Nat) (timeout : Int)
  | close (fd : Int)
  | kill (pid : Int) (sig : Int)
  | waitpid (pid : Int) (options : Int)
  deriving DecidableEq, Repr

/-- Conversion of a `uint16_t` argument to the `unsigned short` field it is stored in. -/
def to_ushort (x : Nat) : Nat := x % 2 ^ 16

/-- Conversion of a `uint32_t` value to `int` (two's complement, 32 bits). -/
def uint32_to_int (x : Nat) : Int :=
  if x % 2 ^ 32 < 2 ^ 31 then ((x % 2 ^ 32 : Nat) : Int) else ((x % 2 ^ 32 : Nat) : Int) - 2 ^ 32

/-- The window size built by `memset (&ws, 0, sizeof ws); ws.ws_col = cols; ws.ws_row = rows`. -/
def mk_winsize (cols rows : Nat) : winsize :=
  { ws_row := to_ushort rows, ws_col := to_ushort cols, ws_xpixel := 0, ws_ypixel := 0 }

/-! ## Finalizer -/

/-- The function `vane_pty_finalizer`: the argument is `none` for a null pointer. -/
def vane_pty_finalizer (K : Libc) (ptr : Option vane_pty_t) : List Syscall :=
  match ptr with
  | none => []
  | some pty =>
    (if pty.master_fd ≥ 0 then [Syscall.close pty.master_fd] else []) ++
    (if pty.child_pid > 0 then
      [Syscall.kill pty.child_pid K.SIGHUP, Syscall.waitpid pty.child_pid K.WNOHANG]
     else [])

/-! ## open -/

/-- What the allocator and the kernel answer during `vane_pty_open`. -/
structure OpenOS where
  /-- whether `malloc` returned a non-null pointer -/
  malloc_ok : Bool
  /-- return value of `forkpty` -/
  forkpty_ret : Int
  /-- descriptor stored through the first argument of `forkpty` -/
  forkpty_master : Int
  /-- value of `errno` after `forkpty` -/
  forkpty_errno : Int
  /-- in the child: `execlp` came back (it failed) -/
  execlp_returns : Bool
  /-- return value of `fcntl (fd, F_GETFL, 0)` -/
  getfl_ret : Int
  /-- return value of `fcntl (fd, F_SETFL, ...)` -/
  setfl_ret : Int

/-- How a call of `vane_pty_open` ends in the process that runs it. -/
inductive OpenResult where
  /-- parent: `lean_io_result_mk_ok` of the boxed handle -/
  | ok (pty : vane_pty_t)
  /-- parent: `lean_io_result_mk_error` -/
  | error (msg : String)
  /-- child: the process image was replaced by the shell -/
  | child_exec
  /-- child: `_exit` -/
  | child_exit (status : Int)
  deriving DecidableEq, Repr

/-- The function `vane_pty_open`. -/
def vane_pty_open (K : Libc) (shell : String) (cols rows : Nat) (os : OpenOS) :
    OpenResult × List Syscall :=
  if !os.malloc_ok then
    (OpenResult.error "Failed to allocate PTY structure", [])
  else
    let ws := mk_winsize cols rows
    let pty : vane_pty_t := { master_fd := os.forkpty_master, child_pid := os.forkpty_ret }
    let t0 := [Syscall.forkpty ws]
    if pty.child_pid = 0 then
      let t1 := t0 ++ [Syscall.setenv "TERM" "xterm-256color",
                       Syscall.setenv "COLORTERM" "truecolor",
                       Syscall.setenv "PROMPT_EOL_MARK" "",
                       Syscall.execlp shell shell "-l"]
      if os.execlp_returns then
        (OpenResult.child_exit 127, t1 ++ [Syscall.exit 127])
      else
        (OpenResult.child_exec, t1)
    else if pty.child_pid < 0 then
      (OpenResult.error "forkpty failed", t0)
    else
      let flags := os.getfl_ret
      let t1 := t0 ++ [Syscall.fcntl_GETFL pty.master_fd]
      if flags ≥ 0 then
        (OpenResult.ok pty,
          t1 ++ [Syscall.fcntl_SETFL pty.master_fd (flags.toNat ||| K.O_NONBLOCK) os.setfl_ret])
      else
        (OpenResult.ok pty, t1)

/-! ## read -/

/-- What the allocator and the kernel answer during `vane_pty_read`. -/
structure ReadOS where
  /-- whether `malloc (max_bytes)` returned a non-null pointer -/
  malloc_ok : Bool
  /-- return value of `read` -/
  n : Int
  /-- value of `errno` after `read` -/
  errno : Int
  /-- contents of the buffer after `read` -/
  buffer : List Byte

/-- The function `vane_pty_read`. -/
def vane_pty_read (K : Libc) (pty : vane_pty_t) (max_bytes : Nat) (os : ReadOS) :
    Except String (List Byte) × List Syscall :=
  if pty.master_fd < 0 then
    (Except.error "PTY is closed", [])
  else if !os.malloc_ok then
    (Except.error "Failed to allocate read buffer", [])
  else
    let tr := [Syscall.read pty.master_fd max_bytes]
    if os.n < 0 then
      if os.errno = K.EAGAIN ∨ os.errno = K.EWOULDBLOCK then
        (Except.ok (os.buffer.take 0), tr)
      else
        (Except.error (K.strerror os.errno), tr)
    else
      (Except.ok (os.buffer.take os.n.toNat), tr)

/-! ## write -/

/-- What the kernel answers to one `write`. -/
structure WriteRet where
  /-- return value of `write` -/
  n : Int
  /-- value of `errno` after `write` -/
  errno : Int
  deriving DecidableEq, Repr

/-- Put one more system call in front of the trace of a run that is still going on. -/
def consCall {α : Type} (c : Syscall) : Option (α × List Syscall) → Option (α × List Syscall)
  | none => none
  | some (a, tr) => some (a, c :: tr)

/-- The `while (written < len)` loop of `vane_pty_write`. The list holds what the kernel
answers to the successive `write` calls; `none` means that the loop is still running after
the last of them. `written` is a `size_t`. -/
def write_loop (K : Libc) (fd : Int) (data : List Byte) :
    Nat → List WriteRet → Option (Except String Unit × List Syscall)
  | written, [] => if written < data.length then none else some (Except.ok (), [])
  | written, r :: rest =>
    if written < data.length then
      consCall (Syscall.write fd (data.drop written) r.n)
        (if r.n < 0 then
          if r.errno = K.EAGAIN ∨ r.errno = K.EWOULDBLOCK then
            write_loop K fd data written rest
          else
            some (Except.error (K.strerror r.errno), [])
        else
          write_loop K fd data ((written + r.n.toNat) % 2 ^ 64) rest)
    else some (Except.ok (), [])

/-- The function `vane_pty_write`. -/
def vane_pty_write (K : Libc) (pty : vane_pty_t) (data : List Byte) (os : List WriteRet) :
    Option (Except String Unit × List Syscall) :=
  if pty.master_fd < 0 then
    some (Except.error "PTY is closed", [])
  else
    write_loop K pty.master_fd data 0 os

/-! ## resize -/

/-- The function `vane_pty_resize`; `ioctl_ret` is the return value of `ioctl`. -/
def vane_pty_resize (pty : vane_pty_t) (cols rows : Nat) (ioctl_ret : Int) :
    Except String Unit × List Syscall :=
  if pty.master_fd < 0 then
    (Except.error "PTY is closed", [])
  else
    let ws := mk_winsize cols rows
    let tr := [Syscall.ioctl_TIOCSWINSZ pty.master_fd ws ioctl_ret]
    if ioctl_ret < 0 then
      (Except.error "ioctl TIOCSWINSZ failed", tr)
    else
      (Except.ok (), tr)

/-! ## poll -/

/-- What the kernel answers to `poll`. -/
structure PollOS where
  /-- return value of `poll` -/
  ret : Int
  /-- the `revents` field after `poll` -/
  revents : Nat
  deriving DecidableEq, Repr

/-- The function `vane_pty_poll`. -/
def vane_pty_poll (K : Libc) (pty : vane_pty_t) (timeout_ms : Nat) (os : PollOS) :
    Except String Bool × List Syscall :=
  if pty.master_fd < 0 then
    (Except.ok false, [])
  else
    (Except.ok (decide (os.ret > 0) && decide (os.revents &&& K.POLLIN ≠ 0)),
      [Syscall.poll pty.master_fd K.POLLIN (uint32_to_int timeout_ms)])

/-! ## close -/

/-- The function `vane_pty_close`, up to the release of the caller's reference. -/
def vane_pty_close (K : Libc) (pty : vane_pty_t) :
    Except String Unit × vane_pty_t × List Syscall :=
  let t1 := if pty.master_fd ≥ 0 then [Syscall.close pty.master_fd] else []
  let p1 : vane_pty_t := if pty.master_fd ≥ 0 then { pty with master_fd := -1 } else pty
  let t2 := if p1.child_pid > 0 then
      [Syscall.kill p1.child_pid K.SIGHUP, Syscall.waitpid p1.child_pid 0] else []
  let p2 : vane_pty_t := if p1.child_pid > 0 then { p1 with child_pid := -1 } else p1
  (Except.ok (), p2, t1 ++ t2)

/-! ## isAlive -/

/-- The function `vane_pty_is_alive`; `result` is the return value of `waitpid`. -/
def vane_pty_is_alive (K : Libc) (pty : vane_pty_t) (result : Int) :
    Except String Bool × vane_pty_t × List Syscall :=
  if pty.child_pid ≤ 0 then
    (Except.ok false, pty, [])
  else
    let tr := [Syscall.waitpid pty.child_pid K.WNOHANG]
    if result = 0 then
      (Except.ok true, pty, tr)
    else
      (Except.ok false, { pty with child_pid := -1 }, tr)

/-! ## Sessions: sequences of operations on one handle -/

/-- One call on a handle, with what the allocator and the kernel answer during it. -/
inductive Op where
  | read (max_bytes : Nat) (os : ReadOS)
  | write (data : List Byte) (os : List WriteRet)
  | resize (cols rows : Nat) (ioctl_ret : Int)
  | poll (timeout_ms : Nat) (os : PollOS)
  | is_alive (result : Int)
  | close

/-- The handle and the system calls after one call; `none` when the call does not return
within the given kernel answers. -/
def step (K : Libc) (pty : vane_pty_t) : Op → Option (vane_pty_t × List Syscall)
  | Op.read max_bytes os => some (pty, (vane_pty_read K pty max_bytes os).2)
  | Op.write data os => (vane_pty_write K pty data os).map fun r => (pty, r.2)
  | Op.resize cols rows ioctl_ret => some (pty, (vane_pty_resize pty cols rows ioctl_ret).2)
  | Op.poll timeout_ms os => some (pty, (vane_pty_poll K pty timeout_ms os).2)
  | Op.is_alive result =>
    some ((vane_pty_is_alive K pty result).2.1, (vane_pty_is_alive K pty result).2.2)
  | Op.close => some ((vane_pty_close K pty).2.1, (vane_pty_close K pty).2.2)

/-- The handle and the system calls after a sequence of calls. -/
def run (K : Libc) : vane_pty_t → List Op → Option (vane_pty_t × List Syscall)
  | pty, [] => some (pty, [])
  | pty, op :: ops =>
    match step K pty op with
    | none => none
    | some (p1, t1) =>
      match run K p1 ops with
      | none => none
      | some (p2, t2) => some (p2, t1 ++ t2)

/-- A whole session: the calls, then the finalizer when the handle is collected. -/
def session (K : Libc) (pty : vane_pty_t) (ops : List Op) : Option (List Syscall) :=
  match run K pty ops with
  | none => none
  | some (p, tr) => some (tr ++ vane_pty_finalizer K (some p))

/-- Does the call return within the kernel answers it carries? Only `write` can fail to:
its loop may still be running after the last answer. -/
def Op.returns (K : Libc) : Op → Bool
  | Op.write data os => (write_loop K 0 data 0 os).isSome
  | _ => true

/-! ## Reading a trace -/

/-- Is the call a `close`? -/
def Syscall.isClose : Syscall → Bool
  | Syscall.close _ => true
  | _ => false

/-- Is the call a `kill` or a `waitpid`? -/
def Syscall.isKillOrWait : Syscall → Bool
  | Syscall.kill _ _ => true
  | Syscall.waitpid _ _ => true
  | _ => false

/-- Is the call a `write`? -/
def Syscall.isWrite : Syscall → Bool
  | Syscall.write _ _ _ => true
  | _ => false

/-- Is the call a `read`? -/
def Syscall.isRead : Syscall → Bool
  | Syscall.read _ _ => true
  | _ => false

/-- The bytes the kernel took in the `write` calls of a trace, in order: a call that
returned `n ≥ 0` took the first `n` bytes it was offered. -/
def acceptedBytes : List Syscall → List Byte
  | [] => []
  | Syscall.write _ buf ret :: tr =>
    (if ret < 0 then [] else buf.take ret.toNat) ++ acceptedBytes tr
  | _ :: tr => acceptedBytes tr

/-- The sum of the non-negative return values of the `write` calls of a trace. -/
def acceptedCount : List Syscall → Nat
  | [] => 0
  | Syscall.write _ _ ret :: tr => (if ret < 0 then 0 else ret.toNat) + acceptedCount tr
  | _ :: tr => acceptedCount tr

/-- The kernel's contract for `write`: a call never returns more than the count it was
given. -/
def writeContract : List Syscall → Prop
  | [] => True
  | Syscall.write _ buf ret :: tr => ret ≤ (buf.length : Int) ∧ writeContract tr
  | _ :: tr => writeContract tr

/-- The file status flags of descriptor `fd` after a trace, from the flags `flags0` before
it: a `fcntl (fd, F_SETFL, flags)` that did not fail replaces them. -/
def statusFlags (fd : Int) (flags0 : Nat) : List Syscall → Nat
  | [] => flags0
  | Syscall.fcntl_SETFL fd1 flags ret :: tr =>
    statusFlags fd (if fd1 = fd ∧ ret ≠ -1 then flags else flags0) tr
  | _ :: tr => statusFlags fd flags0 tr

/-- The window size the kernel holds for the terminal of `fd` after a trace, from the size
`ws0` before it: a `TIOCSWINSZ` that did not fail replaces it. -/
def kernelWinsize (fd : Int) (ws0 : winsize) : List Syscall → winsize
  | [] => ws0
  | Syscall.ioctl_TIOCSWINSZ fd1 ws ret :: tr =>
    kernelWinsize fd (if fd1 = fd ∧ ¬ ret < 0 then ws else ws0) tr
  | _ :: tr => kernelWinsize fd ws0 tr

/-- Does `needle` occur in `msg`? -/
def containsText (msg needle : String) : Prop := needle.data <:+: msg.data

instance (msg needle : String) : Decidable (containsText msg needle) := by
  unfold containsText; infer_instance

/-! ## General facts about the operations -/

theorem close_master_fd (K : Libc) (pty : vane_pty_t) :
    (vane_pty_close K pty).2.1.master_fd < 0 := by
  unfold vane_pty_close
  by_cases h1 : pty.master_fd ≥ 0 <;> by_cases h2 : pty.child_pid > 0 <;> simp [h1, h2] <;> omega

theorem close_child_pid (K : Libc) (pty : vane_pty_t) :
    (vane_pty_close K pty).2.1.child_pid ≤ 0 := by
  unfold vane_pty_close
  by_cases h1 : pty.master_fd ≥ 0 <;> by_cases h2 : pty.child_pid > 0 <;> simp [h1, h2] <;> omega

theorem close_of_closed (K : Libc) (pty : vane_pty_t) (hfd : pty.master_fd < 0)
    (hpid : pty.child_pid ≤ 0) : vane_pty_close K pty = (Except.ok (), pty, []) := by
  have h1 : ¬ pty.master_fd ≥ 0 := by omega
  have h2 : ¬ pty.child_pid > 0 := by omega
  simp [vane_pty_close, h1, h2]

theorem read_of_closed (K : Libc) (pty : vane_pty_t) (hfd : pty.master_fd < 0)
    (max_bytes : Nat) (os : ReadOS) :
    vane_pty_read K pty max_bytes os = (Except.error "PTY is closed", []) := by
  simp [vane_pty_read, hfd]

theorem write_of_closed (K : Libc) (pty : vane_pty_t) (hfd : pty.master_fd < 0)
    (data : List Byte) (os : List WriteRet) :
    vane_pty_write K pty data os = some (Except.error "PTY is closed", []) := by
  simp [vane_pty_write, hfd]

theorem resize_of_closed (pty : vane_pty_t) (hfd : pty.master_fd < 0)
    (cols rows : Nat) (ioctl_ret : Int) :
    vane_pty_resize pty cols rows ioctl_ret = (Except.error "PTY is closed", []) := by
  simp [vane_pty_resize, hfd]

theorem poll_of_closed (K : Libc) (pty : vane_pty_t) (hfd : pty.master_fd < 0)
    (timeout_ms : Nat) (os : PollOS) :
    vane_pty_poll K pty timeout_ms os = (Except.ok false, []) := by
  simp [vane_pty_poll, hfd]

theorem is_alive_of_reaped (K : Libc) (pty : vane_pty_t) (hpid : pty.child_pid ≤ 0)
    (result : Int) : vane_pty_is_alive K pty result = (Except.ok false, pty, []) := by
  simp [vane_pty_is_alive, hpid]

theorem step_of_closed (K : Libc) (pty : vane_pty_t) (hfd : pty.master_fd < 0)
    (hpid : pty.child_pid ≤ 0) (op : Op) : step K pty op = some (pty, []) := by
  cases op with
  | read max_bytes os => simp [step, read_of_closed K pty hfd]
  | write data os => simp [step, write_of_closed K pty hfd]
  | resize cols rows ioctl_ret => simp [step, resize_of_closed pty hfd]
  | poll timeout_ms os => simp [step, poll_of_closed K pty hfd]
  | is_alive result => simp [step, is_alive_of_reaped K pty hpid]
  | close => simp [step, close_of_closed K pty hfd hpid]

theorem run_of_closed (K : Libc) (pty : vane_pty_t) (hfd : pty.master_fd < 0)
    (hpid : pty.child_pid ≤ 0) (ops : List Op) : run K pty ops = some (pty, []) := by
  induction ops with
  | nil => rfl
  | cons op ops ih => simp [run, step_of_closed K pty hfd hpid, ih]

/-- The tracked child PID never becomes positive again once it is not. -/
theorem step_child_pid (K : Libc) (pty p : vane_pty_t) (op : Op) (tr : List Syscall)
    (hpid : pty.child_pid ≤ 0) (h : step K pty op = some (p, tr)) : p.child_pid ≤ 0 := by
  cases op with
  | read max_bytes os => simp [step] at h; rw [← h.1]; exact hpid
  | write data os =>
    simp only [step, Option.map_eq_some'] at h
    obtain ⟨r, -, hr⟩ := h
    simp at hr
    rw [← hr.1]; exact hpid
  | resize cols rows ioctl_ret => simp [step] at h; rw [← h.1]; exact hpid
  | poll timeout_ms os => simp [step] at h; rw [← h.1]; exact hpid
  | is_alive result =>
    simp [step, is_alive_of_reaped K pty hpid] at h; rw [← h.1]; exact hpid
  | close =>
    simp only [step, Option.some.injEq, Prod.mk.injEq] at h
    rw [← h.1]; exact close_child_pid K pty

theorem run_child_pid (K : Libc) (ops : List Op) (pty p : vane_pty_t) (tr : List Syscall)
    (hpid : pty.child_pid ≤ 0) (h : run K pty ops = some (p, tr)) : p.child_pid ≤ 0 := by
  induction ops generalizing pty tr with
  | nil => simp [run] at h; rw [← h.1]; exact hpid
  | cons op ops ih =>
    simp only [run] at h
    cases hs : step K pty op with
    | none => simp [hs] at h
    | some r1 =>
      obtain ⟨p1, t1⟩ := r1
      simp only [hs] at h
      cases hr : run K p1 ops with
      | none => simp [hr] at h
      | some r2 =>
        obtain ⟨p2, t2⟩ := r2
        simp only [hr, Option.some.injEq, Prod.mk.injEq] at h
        obtain ⟨h1, -⟩ := h
        subst h1
        exact ih p1 t2 (step_child_pid K pty p1 op t1 hpid hs) hr

/-! ## C1: operations after close -/

/-- C1: after `close` has run on a handle (in whatever state it was), and after any further
calls on it, `read`, `write` and `resize` fail with "PTY is closed", `poll` and `isAlive`
return false, and none of them issues a system call: their traces are empty, and so is the
trace of every sequence of calls made after the close. -/
theorem ops_after_close (K : Libc) (pty : vane_pty_t) (ops : List Op) :
    ∃ p, run K (vane_pty_close K pty).2.1 ops = some (p, []) ∧
      (∀ max_bytes os, vane_pty_read K p max_bytes os = (Except.error "PTY is closed", [])) ∧
      (∀ data os, vane_pty_write K p data os = some (Except.error "PTY is closed", [])) ∧
      (∀ cols rows ioctl_ret,
        vane_pty_resize p cols rows ioctl_ret = (Except.error "PTY is closed", [])) ∧
      (∀ timeout_ms os, vane_pty_poll K p timeout_ms os = (Except.ok false, [])) ∧
      (∀ result, vane_pty_is_alive K p result = (Except.ok false, p, [])) := by
  have hfd := close_master_fd K pty
  have hpid := close_child_pid K pty
  refine ⟨(vane_pty_close K pty).2.1, run_of_closed K _ hfd hpid ops, ?_, ?_, ?_, ?_, ?_⟩
  · exact fun max_bytes os => read_of_closed K _ hfd max_bytes os
  · exact fun data os => write_of_closed K _ hfd data os
  · exact fun cols rows ioctl_ret => resize_of_closed _ hfd cols rows ioctl_ret
  · exact fun timeout_ms os => poll_of_closed K _ hfd timeout_ms os
  · exact fun result => is_alive_of_reaped K _ hpid result

/-! ## C5: isAlive after a negative answer -/

/-- C5: once `isAlive` has answered false on a handle, every later `isAlive` on it, after
any calls in between, answers false and issues no `waitpid` (its trace is empty); and an
`isAlive` that answers true leaves the handle, so the tracked child PID, unchanged. -/
theorem is_alive_stable (K : Libc) (pty : vane_pty_t) (result : Int) :
    ((vane_pty_is_alive K pty result).1 = Except.ok false →
      ∀ (ops : List Op) (p : vane_pty_t) (tr : List Syscall),
        run K (vane_pty_is_alive K pty result).2.1 ops = some (p, tr) →
        ∀ result1, vane_pty_is_alive K p result1 = (Except.ok false, p, [])) ∧
    ((vane_pty_is_alive K pty result).1 = Except.ok true →
      (vane_pty_is_alive K pty result).2.1 = pty ∧
      (vane_pty_is_alive K pty result).2.1.child_pid = pty.child_pid) := by
  constructor
  · intro hfalse ops p tr hrun result1
    have hpid : (vane_pty_is_alive K pty result).2.1.child_pid ≤ 0 := by
      unfold vane_pty_is_alive at hfalse ⊢
      by_cases h1 : pty.child_pid ≤ 0
      · simp [h1]
      · by_cases h2 : result = 0
        · simp [h1, h2] at hfalse
        · simp [h1, h2]
    exact is_alive_of_reaped K p (run_child_pid K ops _ p tr hpid hrun) result1
  · intro htrue
    unfold vane_pty_is_alive at htrue ⊢
    by_cases h1 : pty.child_pid ≤ 0
    · simp [h1] at htrue
    · by_cases h2 : result = 0
      · simp [h1, h2]
      · simp [h1, h2] at htrue

theorem is_alive_stable_witness :
    (vane_pty_is_alive darwin ⟨3, 100⟩ 100).1 = Except.ok false ∧
    run darwin (vane_pty_is_alive darwin ⟨3, 100⟩ 100).2.1
      [Op.poll 10 ⟨0, 0⟩, Op.is_alive 0] = some (⟨3, -1⟩, [Syscall.poll 3 1 10]) ∧
    vane_pty_is_alive darwin ⟨3, -1⟩ 0 = (Except.ok false, ⟨3, -1⟩, []) ∧
    (vane_pty_is_alive darwin ⟨3, 100⟩ 0).1 = Except.ok true ∧
    (vane_pty_is_alive darwin ⟨3, 100⟩ 0).2.1.child_pid = 100 :=
  ⟨by decide, by decide,
    (is_alive_stable darwin ⟨3, 100⟩ 100).1 (by decide)
      [Op.poll 10 ⟨0, 0⟩, Op.is_alive 0] ⟨3, -1⟩ [Syscall.poll 3 1 10] (by decide) 0,
    by decide, ((is_alive_stable darwin ⟨3, 100⟩ 0).2 (by decide)).2⟩

/-! ## C7: poll -/

/-- C7: `poll` never fails: its result is `ok b`, and `b` is true exactly when the
descriptor is open, the kernel's `poll` returned a positive count and `POLLIN` is set in the
returned events. So it is false on a timeout (count 0), on an error (negative count), when
`POLLIN` is not among the returned events, and on a closed descriptor. -/
theorem poll_true_iff (K : Libc) (pty : vane_pty_t) (timeout_ms : Nat) (os : PollOS) :
    ∃ b, (vane_pty_poll K pty timeout_ms os).1 = Except.ok b ∧
      (b = true ↔ (0 ≤ pty.master_fd ∧ 0 < os.ret ∧ os.revents &&& K.POLLIN ≠ 0)) ∧
      (os.ret = 0 → b = false) ∧
      (os.ret < 0 → b = false) ∧
      (os.revents &&& K.POLLIN = 0 → b = false) ∧
      (pty.master_fd < 0 → b = false) := by
  unfold vane_pty_poll
  by_cases hfd : pty.master_fd < 0
  · refine ⟨false, by simp [hfd], ?_, ?_, ?_, ?_, ?_⟩
    · constructor
      · intro h; cases h
      · intro h; omega
    all_goals intro _; rfl
  · refine ⟨decide (os.ret > 0) && decide (os.revents &&& K.POLLIN ≠ 0), by simp [hfd],
      ?_, ?_, ?_, ?_, ?_⟩
    · simp only [Bool.and_eq_true, decide_eq_true_eq]
      constructor
      · intro h; exact ⟨by omega, h.1, h.2⟩
      · intro h; exact ⟨h.2.1, h.2.2⟩
    · intro h; simp [h]
    · intro h
      have : ¬ os.ret > 0 := by omega
      simp [this]
    · intro h; simp [h]
    · intro h; exact absurd h hfd

theorem poll_true_iff_witness :
    (vane_pty_poll darwin ⟨3, 100⟩ 10 ⟨1, 16⟩).1 = Except.ok false := by
  obtain ⟨b, hb, -, -, -, h, -⟩ := poll_true_iff darwin ⟨3, 100⟩ 10 ⟨1, 16⟩
  rw [hb, h (by decide)]

/-! ## C9: resize -/

/-- C9: on an open descriptor, `resize` with 16-bit `cols` and `rows` issues one
`TIOCSWINSZ` whose window size has `ws_col = cols`, `ws_row = rows` and both pixel fields
zero; when it succeeds the kernel's window size for the terminal is `(cols, rows)`; and it
fails, with "ioctl TIOCSWINSZ failed", exactly when the `ioctl` returns a negative value. -/
theorem resize_sets_winsize (pty : vane_pty_t) (cols rows : Nat) (ioctl_ret : Int)
    (ws0 : winsize) (hopen : 0 ≤ pty.master_fd) (hc : cols < 2 ^ 16) (hr : rows < 2 ^ 16) :
    (vane_pty_resize pty cols rows ioctl_ret).2 =
      [Syscall.ioctl_TIOCSWINSZ pty.master_fd
        { ws_row := rows, ws_col := cols, ws_xpixel := 0, ws_ypixel := 0 } ioctl_ret] ∧
    ((vane_pty_resize pty cols rows ioctl_ret).1 = Except.ok () →
      kernelWinsize pty.master_fd ws0 (vane_pty_resize pty cols rows ioctl_ret).2 =
        { ws_row := rows, ws_col := cols, ws_xpixel := 0, ws_ypixel := 0 }) ∧
    ((vane_pty_resize pty cols rows ioctl_ret).1 = Except.error "ioctl TIOCSWINSZ failed" ↔
      ioctl_ret < 0) ∧
    ((vane_pty_resize pty cols rows ioctl_ret).1 = Except.ok () ↔ ¬ ioctl_ret < 0) := by
  have hfd : ¬ pty.master_fd < 0 := by omega
  have hc1 : cols % 65536 = cols := Nat.mod_eq_of_lt hc
  have hr1 : rows % 65536 = rows := Nat.mod_eq_of_lt hr
  unfold vane_pty_resize
  by_cases hret : ioctl_ret < 0
  · simp [hfd, hret, mk_winsize, to_ushort, hc1, hr1]
  · simp [hfd, hret, mk_winsize, to_ushort, hc1, hr1, kernelWinsize]

theorem resize_sets_winsize_witness :
    (vane_pty_resize ⟨3, 100⟩ 132 43 0).2 =
      [Syscall.ioctl_TIOCSWINSZ 3 { ws_row := 43, ws_col := 132, ws_xpixel := 0, ws_ypixel := 0 } 0] ∧
    kernelWinsize 3 ⟨24, 80, 0, 0⟩ (vane_pty_resize ⟨3, 100⟩ 132 43 0).2 = ⟨43, 132, 0, 0⟩ :=
  ⟨(resize_sets_winsize ⟨3, 100⟩ 132 43 0 ⟨24, 80, 0, 0⟩ (by decide) (by decide) (by decide)).1,
   (resize_sets_winsize ⟨3, 100⟩ 132 43 0 ⟨24, 80, 0, 0⟩ (by decide) (by decide) (by decide)).2.1
     (by decide)⟩

/-! ## C10: the timeout of poll -/

theorem uint32_to_int_of_lt (x : Nat) (h : x < 2 ^ 31) : uint32_to_int x = (x : Int) := by
  have h1 : x % 2 ^ 32 = x := Nat.mod_eq_of_lt (by omega)
  simp only [uint32_to_int, h1, h, if_true]

theorem uint32_to_int_neg (x : Nat) (h1 : 2 ^ 31 ≤ x) (h2 : x < 2 ^ 32) :
    uint32_to_int x = (x : Int) - 2 ^ 32 ∧ uint32_to_int x < 0 := by
  have h3 : x % 2 ^ 32 = x := Nat.mod_eq_of_lt h2
  have h4 : ¬ x < 2 ^ 31 := by omega
  simp only [uint32_to_int, h3, h4, if_false]
  constructor
  · trivial
  · omega

/-- C10: with `timeout_ms = 4294967295` on an open descriptor the timeout `poll` hands to
the kernel is `-1`, the value that asks for a wait without limit, and with
`timeout_ms = 2147483648` it is `-2147483648`: in both cases negative and not equal to
`timeout_ms`. -/
theorem poll_timeout_negative :
    (vane_pty_poll darwin ⟨3, 100⟩ 4294967295 ⟨0, 0⟩).2 = [Syscall.poll 3 1 (-1)] ∧
    (vane_pty_poll darwin ⟨3, 100⟩ 2147483648 ⟨0, 0⟩).2 =
      [Syscall.poll 3 1 (-2147483648)] := by
  constructor <;> decide

/-! ## The write loop -/

theorem consCall_eq_some {α : Type} (c : Syscall) (x : Option (α × List Syscall)) (a : α)
    (tr : List Syscall) :
    consCall c x = some (a, tr) ↔ ∃ t, x = some (a, t) ∧ tr = c :: t := by
  cases x with
  | none => simp [consCall]
  | some r =>
    obtain ⟨a1, t1⟩ := r
    simp only [consCall, Option.some.injEq, Prod.mk.injEq]
    constructor
    · rintro ⟨h1, h2⟩; exact ⟨t1, ⟨h1, rfl⟩, h2.symm⟩
    · rintro ⟨t, ⟨h1, h2⟩, h3⟩; exact ⟨h1, by rw [h3, h2]⟩

theorem consCall_eq_none {α : Type} (c : Syscall) (x : Option (α × List Syscall)) :
    consCall c x = none ↔ x = none := by
  cases x with
  | none => simp [consCall]
  | some r => obtain ⟨a1, t1⟩ := r; simp [consCall]

/-- A would-block answer is retried: the loop goes on with the same `written`. -/
theorem write_loop_would_block (K : Libc) (fd : Int) (data : List Byte) (written : Nat)
    (r : WriteRet) (rest : List WriteRet) (hlt : written < data.length) (hn : r.n < 0)
    (hwb : r.errno = K.EAGAIN ∨ r.errno = K.EWOULDBLOCK) :
    write_loop K fd data written (r :: rest) =
      consCall (Syscall.write fd (data.drop written) r.n)
        (write_loop K fd data written rest) := by
  simp [write_loop, hlt, hn, hwb]

/-- Every call of the loop is a `write`. -/
theorem write_loop_calls (K : Libc) (fd : Int) (data : List Byte) (os : List WriteRet) :
    ∀ (written : Nat) (res : Except String Unit) (tr : List Syscall),
      write_loop K fd data written os = some (res, tr) → ∀ c ∈ tr, c.isWrite = true := by
  induction os with
  | nil =>
    intro written res tr h
    by_cases hlt : written < data.length
    · simp [write_loop, hlt] at h
    · simp only [write_loop, hlt, if_false, Option.some.injEq, Prod.mk.injEq] at h
      obtain ⟨-, h2⟩ := h
      subst h2
      simp
  | cons r rest ih =>
    intro written res tr h
    by_cases hlt : written < data.length
    · simp only [write_loop, hlt, if_true] at h
      obtain ⟨t, ht, rfl⟩ := (consCall_eq_some _ _ _ _).1 h
      intro c hc
      rcases List.mem_cons.1 hc with rfl | hc
      · rfl
      · by_cases hn : r.n < 0
        · by_cases hwb : r.errno = K.EAGAIN ∨ r.errno = K.EWOULDBLOCK
          · simp only [hn, hwb, if_true] at ht
            exact ih _ _ _ ht c hc
          · simp only [hn, hwb, if_true, if_false, Option.some.injEq, Prod.mk.injEq] at ht
            rw [← ht.2] at hc
            simp at hc
        · simp only [hn, if_false] at ht
          exact ih _ _ _ ht c hc
    · simp only [write_loop, hlt, if_false, Option.some.injEq, Prod.mk.injEq] at h
      obtain ⟨-, h2⟩ := h
      subst h2
      simp

/-- An error of the loop is the text of a failure other than would-block. -/
theorem write_loop_error (K : Libc) (fd : Int) (data : List Byte) (os : List WriteRet) :
    ∀ (written : Nat) (msg : String) (tr : List Syscall),
      write_loop K fd data written os = some (Except.error msg, tr) →
      ∃ r ∈ os, r.n < 0 ∧ ¬ (r.errno = K.EAGAIN ∨ r.errno = K.EWOULDBLOCK) ∧
        msg = K.strerror r.errno := by
  induction os with
  | nil =>
    intro written msg tr h
    by_cases hlt : written < data.length <;> simp [write_loop, hlt] at h
  | cons r rest ih =>
    intro written msg tr h
    by_cases hlt : written < data.length
    · simp only [write_loop, hlt, if_true] at h
      obtain ⟨t, ht, -⟩ := (consCall_eq_some _ _ _ _).1 h
      by_cases hn : r.n < 0
      · by_cases hwb : r.errno = K.EAGAIN ∨ r.errno = K.EWOULDBLOCK
        · simp only [hn, hwb, if_true] at ht
          obtain ⟨r1, hmem, hr1⟩ := ih _ _ _ ht
          exact ⟨r1, List.mem_cons_of_mem _ hmem, hr1⟩
        · simp only [hn, hwb, if_true, if_false, Option.some.injEq, Prod.mk.injEq,
            Except.error.injEq] at ht
          exact ⟨r, List.mem_cons_self _ _, hn, hwb, ht.1.symm⟩
      · simp only [hn, if_false] at ht
        obtain ⟨r1, hmem, hr1⟩ := ih _ _ _ ht
        exact ⟨r1, List.mem_cons_of_mem _ hmem, hr1⟩
    · simp [write_loop, hlt] at h

/-- When the loop ends with success and the kernel kept its contract, the bytes it took
are the input from `written` on, and their number is what was left to write. -/
theorem write_loop_ok (K : Libc) (fd : Int) (data : List Byte) (hlen : data.length < 2 ^ 64)
    (os : List WriteRet) :
    ∀ (written : Nat) (tr : List Syscall), written ≤ data.length →
      write_loop K fd data written os = some (Except.ok (), tr) → writeContract tr →
      acceptedBytes tr = data.drop written ∧ acceptedCount tr = data.length - written := by
  induction os with
  | nil =>
    intro written tr hle h _
    by_cases hlt : written < data.length
    · simp [write_loop, hlt] at h
    · simp only [write_loop, hlt, if_false, Option.some.injEq, Prod.mk.injEq] at h
      obtain ⟨-, h2⟩ := h
      subst h2
      have : data.length ≤ written := by omega
      simp [acceptedBytes, acceptedCount, List.drop_eq_nil_of_le this]
      omega
  | cons r rest ih =>
    intro written tr hle h hc
    by_cases hlt : written < data.length
    · simp only [write_loop, hlt, if_true] at h
      obtain ⟨t, ht, rfl⟩ := (consCall_eq_some _ _ _ _).1 h
      simp only [writeContract, List.length_drop] at hc
      obtain ⟨hc1, hc2⟩ := hc
      by_cases hn : r.n < 0
      · by_cases hwb : r.errno = K.EAGAIN ∨ r.errno = K.EWOULDBLOCK
        · simp only [hn, hwb, if_true] at ht
          obtain ⟨h1, h2⟩ := ih written t hle ht hc2
          simp [acceptedBytes, acceptedCount, hn, h1, h2]
        · simp [hn, hwb] at ht
      · simp only [hn, if_false] at ht
        have hn1 : written + r.n.toNat ≤ data.length := by omega
        have hmod : (written + r.n.toNat) % 2 ^ 64 = written + r.n.toNat :=
          Nat.mod_eq_of_lt (by omega)
        rw [hmod] at ht
        obtain ⟨h1, h2⟩ := ih _ t hn1 ht hc2
        constructor
        · simp only [acceptedBytes, hn, if_false, h1]
          rw [← List.drop_drop]
          exact List.take_append_drop _ _
        · simp only [acceptedCount, hn, if_false, h2]
          omega
    · simp only [write_loop, hlt, if_false, Option.some.injEq, Prod.mk.injEq] at h
      obtain ⟨-, h2⟩ := h
      subst h2
      have : data.length ≤ written := by omega
      simp [acceptedBytes, acceptedCount, List.drop_eq_nil_of_le this]
      omega

/-- A failure other than would-block that the loop reaches ends it with the text of the
error, after one `write` per answer up to and including the failing one. -/
theorem write_loop_first_error (K : Libc) (fd : Int) (data : List Byte) (e : WriteRet)
    (post : List WriteRet) (hn : e.n < 0)
    (hwb : ¬ (e.errno = K.EAGAIN ∨ e.errno = K.EWOULDBLOCK)) (pre : List WriteRet) :
    ∀ (written : Nat), write_loop K fd data written pre = none →
      ∃ tr, write_loop K fd data written (pre ++ e :: post) =
          some (Except.error (K.strerror e.errno), tr) ∧
        tr.length = pre.length + 1 := by
  induction pre with
  | nil =>
    intro written h
    by_cases hlt : written < data.length
    · exact ⟨[Syscall.write fd (data.drop written) e.n], by
        simp [write_loop, hlt, hn, hwb, consCall], rfl⟩
    · simp [write_loop, hlt] at h
  | cons r pre ih =>
    intro written h
    by_cases hlt : written < data.length
    · simp only [write_loop, hlt, if_true, consCall_eq_none] at h
      have happ : (r :: pre) ++ e :: post = r :: (pre ++ e :: post) := rfl
      rw [happ]
      simp only [write_loop, hlt, if_true]
      by_cases hrn : r.n < 0
      · by_cases hrwb : r.errno = K.EAGAIN ∨ r.errno = K.EWOULDBLOCK
        · simp only [hrn, hrwb, if_true] at h ⊢
          obtain ⟨tr, h1, h2⟩ := ih written h
          exact ⟨_ :: tr, by rw [h1]; rfl, by simp [h2]⟩
        · simp [hrn, hrwb] at h
      · simp only [hrn, if_false] at h ⊢
        obtain ⟨tr, h1, h2⟩ := ih _ h
        exact ⟨_ :: tr, by rw [h1]; rfl, by simp [h2]⟩
    · simp [write_loop, hlt] at h

/-! ## C3: write -/

/-- C3: on an open descriptor and for an input shorter than `2 ^ 64` bytes:
(1) when `write` returns success and no `write` call returned more than the count it was
given, the chunks taken by the kernel, concatenated in order, are the whole input, and the
counts add up to its length;
(2) a would-block answer is retried: the loop goes on from the same offset with the next
answer;
(3) an error of `write` is always the text of an answer that failed with something other
than would-block, so would-block never surfaces;
(4) when the loop is still running after the answers `pre` and the next answer `e` fails
with something other than would-block, `write` fails with the text of that error after
`pre.length + 1` calls, all of them `write`: none is issued after the failing one. -/
theorem write_all_or_error (K : Libc) (pty : vane_pty_t) (data : List Byte)
    (os : List WriteRet) (hopen : 0 ≤ pty.master_fd) (hlen : data.length < 2 ^ 64) :
    (∀ tr, vane_pty_write K pty data os = some (Except.ok (), tr) → writeContract tr →
      acceptedBytes tr = data ∧ acceptedCount tr = data.length) ∧
    (∀ (written : Nat) (r : WriteRet) (rest : List WriteRet), written < data.length →
      r.n < 0 → (r.errno = K.EAGAIN ∨ r.errno = K.EWOULDBLOCK) →
      write_loop K pty.master_fd data written (r :: rest) =
        consCall (Syscall.write pty.master_fd (data.drop written) r.n)
          (write_loop K pty.master_fd data written rest)) ∧
    (∀ msg tr, vane_pty_write K pty data os = some (Except.error msg, tr) →
      ∃ r ∈ os, r.n < 0 ∧ ¬ (r.errno = K.EAGAIN ∨ r.errno = K.EWOULDBLOCK) ∧
        msg = K.strerror r.errno) ∧
    (∀ (pre : List WriteRet) (e : WriteRet) (post : List WriteRet), os = pre ++ e :: post →
      vane_pty_write K pty data pre = none → e.n < 0 →
      ¬ (e.errno = K.EAGAIN ∨ e.errno = K.EWOULDBLOCK) →
      ∃ tr, vane_pty_write K pty data os = some (Except.error (K.strerror e.errno), tr) ∧
        tr.length = pre.length + 1 ∧ ∀ c ∈ tr, c.isWrite = true) := by
  have hfd : ¬ pty.master_fd < 0 := by omega
  refine ⟨?_, ?_, ?_, ?_⟩
  · intro tr h hc
    simp only [vane_pty_write, hfd, if_false] at h
    simpa using write_loop_ok K pty.master_fd data hlen os 0 tr (Nat.zero_le _) h hc
  · intro written r rest hlt hn hwb
    exact write_loop_would_block K pty.master_fd data written r rest hlt hn hwb
  · intro msg tr h
    simp only [vane_pty_write, hfd, if_false] at h
    exact write_loop_error K pty.master_fd data os 0 msg tr h
  · intro pre e post hos hpre hn hwb
    simp only [vane_pty_write, hfd, if_false] at hpre ⊢
    obtain ⟨tr, h1, h2⟩ := write_loop_first_error K pty.master_fd data e post hn hwb pre 0 hpre
    rw [hos]
    exact ⟨tr, h1, h2, write_loop_calls K pty.master_fd data _ 0 _ tr h1⟩

theorem write_all_or_error_witness :
    (acceptedBytes [Syscall.write 3 [104, 105, 10] (-1), Syscall.write 3 [104, 105, 10] 2,
        Syscall.write 3 [10] 1] = [104, 105, 10] ∧
      acceptedCount [Syscall.write 3 [104, 105, 10] (-1), Syscall.write 3 [104, 105, 10] 2,
        Syscall.write 3 [10] 1] = 3) ∧
    (∃ tr, vane_pty_write darwin ⟨3, 100⟩ [104, 105, 10] [⟨-1, 35⟩, ⟨1, 0⟩, ⟨-1, 5⟩, ⟨2, 0⟩] =
        some (Except.error "Input/output error", tr) ∧
      tr.length = 3 ∧ ∀ c ∈ tr, c.isWrite = true) :=
  ⟨(write_all_or_error darwin ⟨3, 100⟩ [104, 105, 10] [⟨-1, 35⟩, ⟨2, 0⟩, ⟨1, 0⟩]
      (by decide) (by decide)).1 _ (by decide) ⟨by decide, by decide, by decide, trivial⟩,
   (write_all_or_error darwin ⟨3, 100⟩ [104, 105, 10] [⟨-1, 35⟩, ⟨1, 0⟩, ⟨-1, 5⟩, ⟨2, 0⟩]
      (by decide) (by decide)).2.2.2 [⟨-1, 35⟩, ⟨1, 0⟩] ⟨-1, 5⟩ [⟨2, 0⟩] rfl (by decide)
      (by decide) (by decide)⟩

/-! ## C4: read -/

/-- C4, as stated, fails: on an open descriptor, when the allocation of the read buffer
fails, `read` issues no `read` call at all and fails with "Failed to allocate read buffer",
although the kernel would have delivered two bytes. -/
theorem read_alloc_failure :
    0 ≤ (⟨3, 100⟩ : vane_pty_t).master_fd ∧
    vane_pty_read darwin ⟨3, 100⟩ 4096 ⟨false, 2, 0, [104, 105]⟩ =
      (Except.error "Failed to allocate read buffer", []) ∧
    ((vane_pty_read darwin ⟨3, 100⟩ 4096 ⟨false, 2, 0, [104, 105]⟩).2.filter
      Syscall.isRead).length ≠ 1 ∧
    (vane_pty_read darwin ⟨3, 100⟩ 4096 ⟨false, 2, 0, [104, 105]⟩).1 ≠
      Except.ok [104, 105] := by
  decide

/-- C4, amended: on an open descriptor, when the buffer allocation fails `read` fails with
"Failed to allocate read buffer" without any system call; otherwise it issues exactly one
`read` of `max_bytes` on the master descriptor and: a would-block failure gives success with
no bytes; a return value `n ≥ 0` gives success with the first `n` bytes of the buffer, which
are `n` bytes and at most `max_bytes` when the kernel returned at most `max_bytes` into a
buffer of that size; any other failure gives the error text of `errno`. -/
theorem read_classifies (K : Libc) (pty : vane_pty_t) (max_bytes : Nat) (os : ReadOS)
    (hopen : 0 ≤ pty.master_fd) :
    (os.malloc_ok = false →
      vane_pty_read K pty max_bytes os =
        (Except.error "Failed to allocate read buffer", [])) ∧
    (os.malloc_ok = true →
      (vane_pty_read K pty max_bytes os).2 = [Syscall.read pty.master_fd max_bytes] ∧
      (os.n < 0 → (os.errno = K.EAGAIN ∨ os.errno = K.EWOULDBLOCK) →
        (vane_pty_read K pty max_bytes os).1 = Except.ok []) ∧
      (0 ≤ os.n →
        (vane_pty_read K pty max_bytes os).1 = Except.ok (os.buffer.take os.n.toNat)) ∧
      (0 ≤ os.n → os.n ≤ (max_bytes : Int) → os.buffer.length = max_bytes →
        ((os.buffer.take os.n.toNat).length : Int) = os.n ∧
        (os.buffer.take os.n.toNat).length ≤ max_bytes) ∧
      (os.n < 0 → ¬ (os.errno = K.EAGAIN ∨ os.errno = K.EWOULDBLOCK) →
        (vane_pty_read K pty max_bytes os).1 = Except.error (K.strerror os.errno))) := by
  have hfd : ¬ pty.master_fd < 0 := by omega
  constructor
  · intro hm
    simp [vane_pty_read, hfd, hm]
  · intro hm
    refine ⟨?_, ?_, ?_, ?_, ?_⟩
    · unfold vane_pty_read
      by_cases hn : os.n < 0
      · by_cases hwb : os.errno = K.EAGAIN ∨ os.errno = K.EWOULDBLOCK <;>
          simp [hfd, hm, hn, hwb]
      · simp [hfd, hm, hn]
    · intro hn hwb
      simp [vane_pty_read, hfd, hm, hn, hwb]
    · intro hn
      have hn1 : ¬ os.n < 0 := by omega
      simp [vane_pty_read, hfd, hm, hn1]
    · intro hn hle hbuf
      rw [List.length_take, hbuf]
      omega
    · intro hn hwb
      simp [vane_pty_read, hfd, hm, hn, hwb]

theorem read_classifies_witness :
    vane_pty_read darwin ⟨3, 100⟩ 4096 ⟨false, 2, 0, [104, 105]⟩ =
      (Except.error "Failed to allocate read buffer", []) ∧
    (vane_pty_read darwin ⟨3, 100⟩ 2 ⟨true, -1, 35, [0, 0]⟩).1 = Except.ok [] ∧
    (vane_pty_read darwin ⟨3, 100⟩ 2 ⟨true, 1, 0, [104, 0]⟩).1 = Except.ok [104] ∧
    (vane_pty_read darwin ⟨3, 100⟩ 2 ⟨true, -1, 5, [0, 0]⟩).1 =
      Except.error "Input/output error" :=
  ⟨(read_classifies darwin ⟨3, 100⟩ 4096 ⟨false, 2, 0, [104, 105]⟩ (by decide)).1 rfl,
   ((read_classifies darwin ⟨3, 100⟩ 2 ⟨true, -1, 35, [0, 0]⟩ (by decide)).2 rfl).2.1
     (by decide) (by decide),
   ((read_classifies darwin ⟨3, 100⟩ 2 ⟨true, 1, 0, [104, 0]⟩ (by decide)).2 rfl).2.2.1
     (by decide),
   ((read_classifies darwin ⟨3, 100⟩ 2 ⟨true, -1, 5, [0, 0]⟩ (by decide)).2 rfl).2.2.2.2
     (by decide) (by decide)⟩

/-! ## C6: non-blocking mode after open -/

theorem or_and_self_right (a b : Nat) : (a ||| b) &&& b = b := by
  apply Nat.eq_of_testBit_eq
  intro i
  simp only [Nat.testBit_and, Nat.testBit_or]
  cases a.testBit i <;> cases b.testBit i <;> rfl

/-- C6, as stated, fails: `open` returns a handle although the descriptor, whose status
flags were `O_RDWR` (2) after `forkpty`, is still in blocking mode, both when the query of
the flags fails (no `F_SETFL` is issued then) and when the `F_SETFL` call fails. -/
theorem open_stays_blocking :
    (vane_pty_open darwin "/bin/zsh" 80 24 ⟨true, 100, 3, 0, false, -1, 0⟩).1 =
      OpenResult.ok ⟨3, 100⟩ ∧
    (vane_pty_open darwin "/bin/zsh" 80 24 ⟨true, 100, 3, 0, false, -1, 0⟩).2 =
      [Syscall.forkpty ⟨24, 80, 0, 0⟩, Syscall.fcntl_GETFL 3] ∧
    statusFlags 3 2 (vane_pty_open darwin "/bin/zsh" 80 24 ⟨true, 100, 3, 0, false, -1, 0⟩).2
      &&& darwin.O_NONBLOCK = 0 ∧
    (vane_pty_open darwin "/bin/zsh" 80 24 ⟨true, 100, 3, 0, false, 2, -1⟩).1 =
      OpenResult.ok ⟨3, 100⟩ ∧
    statusFlags 3 2 (vane_pty_open darwin "/bin/zsh" 80 24 ⟨true, 100, 3, 0, false, 2, -1⟩).2
      &&& darwin.O_NONBLOCK = 0 := by
  decide

/-- C6, amended: `open` returns a session handle exactly when the allocation succeeded and
`forkpty` returned a positive PID, and the handle then holds the descriptor and the PID
`forkpty` gave, whatever the two `fcntl` calls answer. In that case: when the query of the
descriptor's flags succeeds and the flag-setting call succeeds, the status flags of the
master descriptor contain `O_NONBLOCK` when the handle is returned; when the query fails
no flag-setting call is issued; when the flag-setting call fails its result is ignored; and
in both failure cases the flags are as `forkpty` left them. -/
theorem open_nonblocking (K : Libc) (shell : String) (cols rows : Nat) (os : OpenOS)
    (flags0 : Nat) :
    ((∃ pty, (vane_pty_open K shell cols rows os).1 = OpenResult.ok pty) ↔
      (os.malloc_ok = true ∧ 0 < os.forkpty_ret)) ∧
    (∀ pty, (vane_pty_open K shell cols rows os).1 = OpenResult.ok pty →
      pty = ⟨os.forkpty_master, os.forkpty_ret⟩) ∧
    (os.malloc_ok = true → 0 < os.forkpty_ret →
      (vane_pty_open K shell cols rows os).1 =
        OpenResult.ok ⟨os.forkpty_master, os.forkpty_ret⟩ ∧
      (0 ≤ os.getfl_ret → os.setfl_ret ≠ -1 →
        statusFlags os.forkpty_master flags0 (vane_pty_open K shell cols rows os).2
          &&& K.O_NONBLOCK = K.O_NONBLOCK) ∧
      (os.getfl_ret < 0 →
        (vane_pty_open K shell cols rows os).2 =
          [Syscall.forkpty (mk_winsize cols rows), Syscall.fcntl_GETFL os.forkpty_master] ∧
        statusFlags os.forkpty_master flags0 (vane_pty_open K shell cols rows os).2
          = flags0) ∧
      (0 ≤ os.getfl_ret →
        (vane_pty_open K shell cols rows os).2 =
          [Syscall.forkpty (mk_winsize cols rows), Syscall.fcntl_GETFL os.forkpty_master,
            Syscall.fcntl_SETFL os.forkpty_master (os.getfl_ret.toNat ||| K.O_NONBLOCK)
              os.setfl_ret]) ∧
      (os.setfl_ret = -1 →
        statusFlags os.forkpty_master flags0 (vane_pty_open K shell cols rows os).2
          = flags0)) := by
  have hres : os.malloc_ok = true → 0 < os.forkpty_ret →
      (vane_pty_open K shell cols rows os).1 =
        OpenResult.ok ⟨os.forkpty_master, os.forkpty_ret⟩ := by
    intro hm hpos
    have h0 : ¬ os.forkpty_ret = 0 := by omega
    have hneg : ¬ os.forkpty_ret < 0 := by omega
    unfold vane_pty_open
    by_cases hg : os.getfl_ret ≥ 0 <;> simp [hm, h0, hneg, hg]
  have hconv : ∀ pty, (vane_pty_open K shell cols rows os).1 = OpenResult.ok pty →
      os.malloc_ok = true ∧ 0 < os.forkpty_ret := by
    intro pty hok
    unfold vane_pty_open at hok
    by_cases hm : os.malloc_ok = true
    · by_cases h0 : os.forkpty_ret = 0
      · by_cases he : os.execlp_returns = true <;> simp [hm, h0, he] at hok
      · by_cases hneg : os.forkpty_ret < 0
        · simp [hm, h0, hneg] at hok
        · exact ⟨hm, by omega⟩
    · simp [hm] at hok
  refine ⟨⟨?_, ?_⟩, ?_, ?_⟩
  · rintro ⟨pty, hok⟩
    exact hconv pty hok
  · rintro ⟨hm, hpos⟩
    exact ⟨_, hres hm hpos⟩
  · intro pty hok
    obtain ⟨hm, hpos⟩ := hconv pty hok
    rw [hres hm hpos] at hok
    simp only [OpenResult.ok.injEq] at hok
    exact hok.symm
  · intro hm hpos
    have h0 : ¬ os.forkpty_ret = 0 := by omega
    have hneg : ¬ os.forkpty_ret < 0 := by omega
    refine ⟨hres hm hpos, ?_, ?_, ?_, ?_⟩
    · intro hg hs
      have hg1 : os.getfl_ret ≥ 0 := hg
      simp [vane_pty_open, hm, h0, hneg, hg1, statusFlags, hs, or_and_self_right]
    · intro hg
      have hg1 : ¬ os.getfl_ret ≥ 0 := by omega
      simp [vane_pty_open, hm, h0, hneg, hg1, statusFlags]
    · intro hg
      have hg1 : os.getfl_ret ≥ 0 := hg
      simp [vane_pty_open, hm, h0, hneg, hg1]
    · intro hs
      by_cases hg1 : os.getfl_ret ≥ 0
      · simp [vane_pty_open, hm, h0, hneg, hg1, statusFlags, hs]
      · simp [vane_pty_open, hm, h0, hneg, hg1, statusFlags]

theorem open_nonblocking_witness :
    (vane_pty_open darwin "/bin/zsh" 80 24 ⟨true, 100, 3, 0, false, 2, 0⟩).1 =
      OpenResult.ok ⟨3, 100⟩ ∧
    statusFlags 3 2 (vane_pty_open darwin "/bin/zsh" 80 24 ⟨true, 100, 3, 0, false, 2, 0⟩).2
      &&& darwin.O_NONBLOCK = darwin.O_NONBLOCK ∧
    (vane_pty_open darwin "/bin/zsh" 80 24 ⟨true, 100, 3, 0, false, -1, 0⟩).1 =
      OpenResult.ok ⟨3, 100⟩ ∧
    statusFlags 3 2 (vane_pty_open darwin "/bin/zsh" 80 24 ⟨true, 100, 3, 0, false, -1, 0⟩).2
      = 2 :=
  ⟨((open_nonblocking darwin "/bin/zsh" 80 24 ⟨true, 100, 3, 0, false, 2, 0⟩ 2).2.2
      rfl (by decide)).1,
   ((open_nonblocking darwin "/bin/zsh" 80 24 ⟨true, 100, 3, 0, false, 2, 0⟩ 2).2.2
      rfl (by decide)).2.1 (by decide) (by decide),
   ((open_nonblocking darwin "/bin/zsh" 80 24 ⟨true, 100, 3, 0, false, -1, 0⟩ 2).2.2
      rfl (by decide)).1,
   (((open_nonblocking darwin "/bin/zsh" 80 24 ⟨true, 100, 3, 0, false, -1, 0⟩ 2).2.2
      rfl (by decide)).2.2.1 (by decide)).2⟩

/-! ## C8: the text of errors -/

/-- C8, as stated, fails: when `forkpty` fails with `ENOMEM` (12), `open` fails with
"forkpty failed", which does not contain the text of that error; and when `TIOCSWINSZ`
fails (for instance with `ENOTTY`, 25), `resize` fails with "ioctl TIOCSWINSZ failed",
which does not contain the text of that error either. -/
theorem fixed_error_texts :
    (vane_pty_open darwin "/bin/zsh" 80 24 ⟨true, -1, -1, 12, false, 0, 0⟩).1 =
      OpenResult.error "forkpty failed" ∧
    ¬ containsText "forkpty failed" (darwin.strerror 12) ∧
    (vane_pty_resize ⟨3, 100⟩ 80 24 (-1)).1 = Except.error "ioctl TIOCSWINSZ failed" ∧
    ¬ containsText "ioctl TIOCSWINSZ failed" (darwin.strerror 25) := by
  decide

/-- C8, amended: the error of `read` and of `write` on a failure other than would-block is
the text `strerror` gives for the error code of that failure; the error of `open` on a
failed `forkpty` is the fixed text "forkpty failed" and the error of `resize` on a failed
`TIOCSWINSZ` is the fixed text "ioctl TIOCSWINSZ failed", whatever the error code. -/
theorem os_error_texts (K : Libc) :
    (∀ (shell : String) (cols rows : Nat) (os : OpenOS), os.malloc_ok = true →
      os.forkpty_ret < 0 →
      (vane_pty_open K shell cols rows os).1 = OpenResult.error "forkpty failed") ∧
    (∀ (pty : vane_pty_t) (max_bytes : Nat) (os : ReadOS), 0 ≤ pty.master_fd →
      os.malloc_ok = true → os.n < 0 → ¬ (os.errno = K.EAGAIN ∨ os.errno = K.EWOULDBLOCK) →
      (vane_pty_read K pty max_bytes os).1 = Except.error (K.strerror os.errno) ∧
      containsText (K.strerror os.errno) (K.strerror os.errno)) ∧
    (∀ (pty : vane_pty_t) (data : List Byte) (os : List WriteRet) (msg : String)
      (tr : List Syscall), 0 ≤ pty.master_fd →
      vane_pty_write K pty data os = some (Except.error msg, tr) →
      ∃ r ∈ os, r.n < 0 ∧ ¬ (r.errno = K.EAGAIN ∨ r.errno = K.EWOULDBLOCK) ∧
        msg = K.strerror r.errno ∧ containsText msg (K.strerror r.errno)) ∧
    (∀ (pty : vane_pty_t) (cols rows : Nat) (ioctl_ret : Int), 0 ≤ pty.master_fd →
      ioctl_ret < 0 →
      (vane_pty_resize pty cols rows ioctl_ret).1 =
        Except.error "ioctl TIOCSWINSZ failed") := by
  refine ⟨?_, ?_, ?_, ?_⟩
  · intro shell cols rows os hm hneg
    have h0 : ¬ os.forkpty_ret = 0 := by omega
    simp [vane_pty_open, hm, h0, hneg]
  · intro pty max_bytes os hopen hm hn hwb
    have hfd : ¬ pty.master_fd < 0 := by omega
    exact ⟨by simp [vane_pty_read, hfd, hm, hn, hwb], List.infix_refl _⟩
  · intro pty data os msg tr hopen h
    have hfd : ¬ pty.master_fd < 0 := by omega
    simp only [vane_pty_write, hfd, if_false] at h
    obtain ⟨r, hmem, h1, h2, h3⟩ := write_loop_error K pty.master_fd data os 0 msg tr h
    exact ⟨r, hmem, h1, h2, h3, by rw [h3]; exact List.infix_refl _⟩
  · intro pty cols rows ioctl_ret hopen hret
    have hfd : ¬ pty.master_fd < 0 := by omega
    simp [vane_pty_resize, hfd, hret]

theorem os_error_texts_witness :
    (vane_pty_open darwin "/bin/zsh" 80 24 ⟨true, -1, -1, 12, false, 0, 0⟩).1 =
      OpenResult.error "forkpty failed" ∧
    (vane_pty_read darwin ⟨3, 100⟩ 16 ⟨true, -1, 9, []⟩).1 =
      Except.error "Bad file descriptor" ∧
    (vane_pty_resize ⟨3, 100⟩ 80 24 (-1)).1 = Except.error "ioctl TIOCSWINSZ failed" :=
  ⟨(os_error_texts darwin).1 "/bin/zsh" 80 24 ⟨true, -1, -1, 12, false, 0, 0⟩ rfl (by decide),
   ((os_error_texts darwin).2.1 ⟨3, 100⟩ 16 ⟨true, -1, 9, []⟩ (by decide) rfl (by decide)
     (by decide)).1,
   (os_error_texts darwin).2.2.2 ⟨3, 100⟩ 80 24 (-1) (by decide) (by decide)⟩

/-! ## C2: cleanup runs once -/

theorem isWrite_quiet (c : Syscall) (h : c.isWrite = true) :
    c.isClose = false ∧ c.isKillOrWait = false := by
  cases c <;> simp_all [Syscall.isWrite, Syscall.isClose, Syscall.isKillOrWait]

theorem read_quiet (K : Libc) (pty : vane_pty_t) (max_bytes : Nat) (os : ReadOS) :
    ∀ c ∈ (vane_pty_read K pty max_bytes os).2, c.isClose = false ∧ c.isKillOrWait = false := by
  intro c hc
  unfold vane_pty_read at hc
  split_ifs at hc <;> simp at hc <;> subst hc <;> exact ⟨rfl, rfl⟩

theorem write_quiet (K : Libc) (pty : vane_pty_t) (data : List Byte) (os : List WriteRet)
    (res : Except String Unit) (tr : List Syscall)
    (h : vane_pty_write K pty data os = some (res, tr)) :
    ∀ c ∈ tr, c.isClose = false ∧ c.isKillOrWait = false := by
  intro c hc
  unfold vane_pty_write at h
  split_ifs at h
  · simp only [Option.some.injEq, Prod.mk.injEq] at h
    obtain ⟨-, h2⟩ := h
    subst h2
    simp at hc
  · exact isWrite_quiet c (write_loop_calls K _ data os 0 res tr h c hc)

theorem resize_quiet (pty : vane_pty_t) (cols rows : Nat) (ioctl_ret : Int) :
    ∀ c ∈ (vane_pty_resize pty cols rows ioctl_ret).2,
      c.isClose = false ∧ c.isKillOrWait = false := by
  intro c hc
  unfold vane_pty_resize at hc
  split_ifs at hc <;> simp at hc <;> subst hc <;> exact ⟨rfl, rfl⟩

theorem poll_quiet (K : Libc) (pty : vane_pty_t) (timeout_ms : Nat) (os : PollOS) :
    ∀ c ∈ (vane_pty_poll K pty timeout_ms os).2, c.isClose = false ∧ c.isKillOrWait = false := by
  intro c hc
  unfold vane_pty_poll at hc
  by_cases hfd : pty.master_fd < 0
  · simp [hfd] at hc
  · simp [hfd] at hc
    subst hc
    exact ⟨rfl, rfl⟩

theorem filter_isClose_of_quiet (tr : List Syscall)
    (h : ∀ c ∈ tr, c.isClose = false ∧ c.isKillOrWait = false) :
    tr.filter Syscall.isClose = [] := by
  rw [List.filter_eq_nil_iff]
  intro c hc
  simp [(h c hc).1]

/-- What one call does to the master descriptor and which `close` calls it issues. -/
theorem step_closes (K : Libc) (pty q : vane_pty_t) (op : Op) (t : List Syscall)
    (h : step K pty op = some (q, t)) :
    (0 ≤ pty.master_fd →
      (q.master_fd = pty.master_fd ∧ t.filter Syscall.isClose = []) ∨
      (q.master_fd < 0 ∧ t.filter Syscall.isClose = [Syscall.close pty.master_fd])) ∧
    (pty.master_fd < 0 → q.master_fd < 0 ∧ t.filter Syscall.isClose = []) := by
  cases op with
  | read max_bytes os =>
    simp only [step, Option.some.injEq, Prod.mk.injEq] at h
    obtain ⟨rfl, rfl⟩ := h
    have := filter_isClose_of_quiet _ (read_quiet K pty max_bytes os)
    exact ⟨fun _ => Or.inl ⟨rfl, this⟩, fun hc => ⟨hc, this⟩⟩
  | write data os =>
    simp only [step, Option.map_eq_some'] at h
    obtain ⟨r, hr, hq⟩ := h
    simp only [Prod.mk.injEq] at hq
    obtain ⟨rfl, rfl⟩ := hq
    have := filter_isClose_of_quiet _ (write_quiet K pty data os r.1 r.2 hr)
    exact ⟨fun _ => Or.inl ⟨rfl, this⟩, fun hc => ⟨hc, this⟩⟩
  | resize cols rows ioctl_ret =>
    simp only [step, Option.some.injEq, Prod.mk.injEq] at h
    obtain ⟨rfl, rfl⟩ := h
    have := filter_isClose_of_quiet _ (resize_quiet pty cols rows ioctl_ret)
    exact ⟨fun _ => Or.inl ⟨rfl, this⟩, fun hc => ⟨hc, this⟩⟩
  | poll timeout_ms os =>
    simp only [step, Option.some.injEq, Prod.mk.injEq] at h
    obtain ⟨rfl, rfl⟩ := h
    have := filter_isClose_of_quiet _ (poll_quiet K pty timeout_ms os)
    exact ⟨fun _ => Or.inl ⟨rfl, this⟩, fun hc => ⟨hc, this⟩⟩
  | is_alive result =>
    simp only [step, Option.some.injEq, Prod.mk.injEq] at h
    obtain ⟨rfl, rfl⟩ := h
    have h1 : (vane_pty_is_alive K pty result).2.1.master_fd = pty.master_fd := by
      unfold vane_pty_is_alive; split_ifs <;> rfl
    have h2 : (vane_pty_is_alive K pty result).2.2.filter Syscall.isClose = [] := by
      unfold vane_pty_is_alive; split_ifs <;> rfl
    exact ⟨fun _ => Or.inl ⟨h1, h2⟩, fun hc => ⟨by rw [h1]; exact hc, h2⟩⟩
  | close =>
    simp only [step, Option.some.injEq, Prod.mk.injEq] at h
    obtain ⟨rfl, rfl⟩ := h
    constructor
    · intro hopen
      refine Or.inr ⟨close_master_fd K pty, ?_⟩
      have h1 : pty.master_fd ≥ 0 := hopen
      unfold vane_pty_close
      by_cases h2 : pty.child_pid > 0 <;>
        simp [h1, h2, List.filter, Syscall.isClose]
    · intro hc
      refine ⟨close_master_fd K pty, ?_⟩
      have h1 : ¬ pty.master_fd ≥ 0 := by omega
      unfold vane_pty_close
      by_cases h2 : pty.child_pid > 0 <;>
        simp [h1, h2, List.filter, Syscall.isClose]

theorem run_cons_some (K : Libc) (pty q : vane_pty_t) (op : Op) (ops : List Op)
    (t : List Syscall) (h : run K pty (op :: ops) = some (q, t)) :
    ∃ p1 t1 t2, step K pty op = some (p1, t1) ∧ run K p1 ops = some (q, t2) ∧
      t = t1 ++ t2 := by
  simp only [run] at h
  cases hs : step K pty op with
  | none => simp [hs] at h
  | some r1 =>
    obtain ⟨p1, t1⟩ := r1
    simp only [hs] at h
    cases hr : run K p1 ops with
    | none => simp [hr] at h
    | some r2 =>
      obtain ⟨p2, t2⟩ := r2
      simp only [hr, Option.some.injEq, Prod.mk.injEq] at h
      obtain ⟨rfl, rfl⟩ := h
      exact ⟨p1, t1, t2, rfl, hr, rfl⟩

/-- What a sequence of calls does to the master descriptor and which `close` calls it
issues. -/
theorem run_closes (K : Libc) (ops : List Op) :
    ∀ (pty q : vane_pty_t) (t : List Syscall), run K pty ops = some (q, t) →
      (0 ≤ pty.master_fd →
        (q.master_fd = pty.master_fd ∧ t.filter Syscall.isClose = []) ∨
        (q.master_fd < 0 ∧ t.filter Syscall.isClose = [Syscall.close pty.master_fd])) ∧
      (pty.master_fd < 0 → q.master_fd < 0 ∧ t.filter Syscall.isClose = []) := by
  induction ops with
  | nil =>
    intro pty q t h
    simp only [run, Option.some.injEq, Prod.mk.injEq] at h
    obtain ⟨rfl, rfl⟩ := h
    exact ⟨fun _ => Or.inl ⟨rfl, rfl⟩, fun hc => ⟨hc, rfl⟩⟩
  | cons op ops ih =>
    intro pty q t h
    obtain ⟨p1, t1, t2, hs, hr, rfl⟩ := run_cons_some K pty q op ops t h
    have hstep := step_closes K pty p1 op t1 hs
    have hrun := ih p1 q t2 hr
    constructor
    · intro hopen
      rcases hstep.1 hopen with ⟨hfd, ht1⟩ | ⟨hfd, ht1⟩
      · rcases hrun.1 (by omega) with ⟨hq, ht2⟩ | ⟨hq, ht2⟩
        · exact Or.inl ⟨by omega, by rw [List.filter_append, ht1, ht2]; rfl⟩
        · exact Or.inr ⟨hq, by rw [List.filter_append, ht1, ht2, hfd]; rfl⟩
      · obtain ⟨hq, ht2⟩ := hrun.2 hfd
        exact Or.inr ⟨hq, by rw [List.filter_append, ht1, ht2]; rfl⟩
    · intro hc
      obtain ⟨hfd, ht1⟩ := hstep.2 hc
      obtain ⟨hq, ht2⟩ := hrun.2 hfd
      exact ⟨hq, by rw [List.filter_append, ht1, ht2]; rfl⟩

theorem finalizer_closes (K : Libc) (q : vane_pty_t) :
    (vane_pty_finalizer K (some q)).filter Syscall.isClose =
      if 0 ≤ q.master_fd then [Syscall.close q.master_fd] else [] := by
  unfold vane_pty_finalizer
  by_cases h1 : q.master_fd ≥ 0 <;> by_cases h2 : q.child_pid > 0 <;>
    simp [h1, h2, List.filter, Syscall.isClose]

theorem finalizer_no_kill (K : Libc) (q : vane_pty_t) (hpid : q.child_pid ≤ 0) :
    ∀ c ∈ vane_pty_finalizer K (some q), c.isKillOrWait = false := by
  have h2 : ¬ q.child_pid > 0 := by omega
  intro c hc
  unfold vane_pty_finalizer at hc
  by_cases h1 : q.master_fd ≥ 0
  · simp [h1, h2] at hc; subst hc; rfl
  · simp [h1, h2] at hc

theorem step_no_kill (K : Libc) (pty q : vane_pty_t) (op : Op) (t : List Syscall)
    (hpid : pty.child_pid ≤ 0) (h : step K pty op = some (q, t)) :
    ∀ c ∈ t, c.isKillOrWait = false := by
  cases op with
  | read max_bytes os =>
    simp only [step, Option.some.injEq, Prod.mk.injEq] at h
    obtain ⟨-, rfl⟩ := h
    exact fun c hc => (read_quiet K pty max_bytes os c hc).2
  | write data os =>
    simp only [step, Option.map_eq_some'] at h
    obtain ⟨r, hr, hq⟩ := h
    simp only [Prod.mk.injEq] at hq
    obtain ⟨-, rfl⟩ := hq
    exact fun c hc => (write_quiet K pty data os r.1 r.2 hr c hc).2
  | resize cols rows ioctl_ret =>
    simp only [step, Option.some.injEq, Prod.mk.injEq] at h
    obtain ⟨-, rfl⟩ := h
    exact fun c hc => (resize_quiet pty cols rows ioctl_ret c hc).2
  | poll timeout_ms os =>
    simp only [step, Option.some.injEq, Prod.mk.injEq] at h
    obtain ⟨-, rfl⟩ := h
    exact fun c hc => (poll_quiet K pty timeout_ms os c hc).2
  | is_alive result =>
    simp only [step, is_alive_of_reaped K pty hpid, Option.some.injEq, Prod.mk.injEq] at h
    obtain ⟨-, rfl⟩ := h
    intro c hc
    simp at hc
  | close =>
    simp only [step, Option.some.injEq, Prod.mk.injEq] at h
    obtain ⟨-, rfl⟩ := h
    have h2 : ¬ pty.child_pid > 0 := by omega
    intro c hc
    unfold vane_pty_close at hc
    by_cases h1 : pty.master_fd ≥ 0
    · simp [h1, h2] at hc; subst hc; rfl
    · simp [h1, h2] at hc

theorem run_no_kill (K : Libc) (ops : List Op) :
    ∀ (pty q : vane_pty_t) (t : List Syscall), pty.child_pid ≤ 0 →
      run K pty ops = some (q, t) → ∀ c ∈ t, c.isKillOrWait = false := by
  induction ops with
  | nil =>
    intro pty q t _ h
    simp only [run, Option.some.injEq, Prod.mk.injEq] at h
    obtain ⟨-, rfl⟩ := h
    intro c hc
    simp at hc
  | cons op ops ih =>
    intro pty q t hpid h
    obtain ⟨p1, t1, t2, hs, hr, rfl⟩ := run_cons_some K pty q op ops t h
    intro c hc
    rcases List.mem_append.1 hc with hc | hc
    · exact step_no_kill K pty p1 op t1 hpid hs c hc
    · exact ih p1 q t2 (step_child_pid K pty p1 op t1 hpid hs) hr c hc

theorem run_append_some (K : Libc) (pre post : List Op) :
    ∀ (pty q : vane_pty_t) (t : List Syscall), run K pty (pre ++ post) = some (q, t) →
      ∃ p t1 t2, run K pty pre = some (p, t1) ∧ run K p post = some (q, t2) ∧
        t = t1 ++ t2 := by
  induction pre with
  | nil =>
    intro pty q t h
    exact ⟨pty, [], t, rfl, h, rfl⟩
  | cons op pre ih =>
    intro pty q t h
    have happ : (op :: pre) ++ post = op :: (pre ++ post) := rfl
    rw [happ] at h
    obtain ⟨p1, t1, t2, hs, hr, rfl⟩ := run_cons_some K pty q op (pre ++ post) t h
    obtain ⟨p, u1, u2, h1, h2, rfl⟩ := ih p1 q t2 hr
    refine ⟨p, t1 ++ u1, u2, ?_, h2, by simp⟩
    simp [run, hs, h1]

theorem consCall_isSome {α : Type} (c : Syscall) (x : Option (α × List Syscall)) :
    (consCall c x).isSome = x.isSome := by
  cases x with
  | none => rfl
  | some r => rfl

/-- Whether the loop ends within the given answers does not depend on the descriptor. -/
theorem write_loop_isSome_fd (K : Libc) (fd1 fd2 : Int) (data : List Byte)
    (os : List WriteRet) :
    ∀ written : Nat, (write_loop K fd1 data written os).isSome =
      (write_loop K fd2 data written os).isSome := by
  induction os with
  | nil =>
    intro written
    by_cases hlt : written < data.length <;> simp [write_loop, hlt]
  | cons r rest ih =>
    intro written
    by_cases hlt : written < data.length
    · simp only [write_loop, hlt, if_true, consCall_isSome]
      by_cases hn : r.n < 0
      · by_cases hwb : r.errno = K.EAGAIN ∨ r.errno = K.EWOULDBLOCK
        · simp only [hn, hwb, if_true]
          exact ih written
        · simp [hn, hwb]
      · simp only [hn, if_false]
        exact ih _
    · simp [write_loop, hlt]

/-- A call that returns within its kernel answers gives a next handle and a trace. -/
theorem step_returns (K : Libc) (pty : vane_pty_t) (op : Op) (h : op.returns K = true) :
    ∃ q t, step K pty op = some (q, t) := by
  cases op with
  | read max_bytes os => exact ⟨_, _, rfl⟩
  | write data os =>
    simp only [Op.returns] at h
    by_cases hfd : pty.master_fd < 0
    · exact ⟨pty, [], by simp [step, vane_pty_write, hfd]⟩
    · rw [write_loop_isSome_fd K 0 pty.master_fd data os 0] at h
      obtain ⟨r, hr⟩ := Option.isSome_iff_exists.1 h
      exact ⟨pty, r.2, by simp [step, vane_pty_write, hfd, hr]⟩
  | resize cols rows ioctl_ret => exact ⟨_, _, rfl⟩
  | poll timeout_ms os => exact ⟨_, _, rfl⟩
  | is_alive result => exact ⟨_, _, rfl⟩
  | close => exact ⟨_, _, rfl⟩

theorem run_returns (K : Libc) (ops : List Op) :
    ∀ pty : vane_pty_t, (∀ op ∈ ops, op.returns K = true) →
      ∃ q t, run K pty ops = some (q, t) := by
  induction ops with
  | nil => exact fun pty _ => ⟨pty, [], rfl⟩
  | cons op ops ih =>
    intro pty h
    obtain ⟨p1, t1, hs⟩ := step_returns K pty op (h op (List.mem_cons_self _ _))
    obtain ⟨q, t2, hr⟩ := ih p1 (fun o ho => h o (List.mem_cons_of_mem _ ho))
    exact ⟨q, t1 ++ t2, by simp [run, hs, hr]⟩

/-- C2: take a handle with an open master descriptor and any sequence of calls (`read`,
`write`, `resize`, `poll`, `isAlive` and `close`, in any order) each of which returns,
followed by the finalizer. Then the session runs to its end, and in its trace the only
`close` is one `close` of the master descriptor; and from any point of the sequence at which
the tracked child PID is marked reaped (it is not positive) onwards, the rest of the calls
and the finalizer issue no `kill` and no `waitpid`. -/
theorem cleanup_once (K : Libc) (pty : vane_pty_t) (ops : List Op)
    (hopen : 0 ≤ pty.master_fd) (hret : ∀ op ∈ ops, op.returns K = true) :
    ∃ tr, session K pty ops = some tr ∧
      tr.filter Syscall.isClose = [Syscall.close pty.master_fd] ∧
      (tr.filter Syscall.isClose).length = 1 ∧
      ∀ (pre post : List Op) (p : vane_pty_t) (t1 : List Syscall), ops = pre ++ post →
        run K pty pre = some (p, t1) → p.child_pid ≤ 0 →
        ∃ t2, session K p post = some t2 ∧ tr = t1 ++ t2 ∧
          ∀ c ∈ t2, c.isKillOrWait = false := by
  obtain ⟨q, t, hrun⟩ := run_returns K ops pty hret
  have hcl : (t ++ vane_pty_finalizer K (some q)).filter Syscall.isClose =
      [Syscall.close pty.master_fd] := by
    rw [List.filter_append, finalizer_closes]
    rcases (run_closes K ops pty q t hrun).1 hopen with ⟨hq, ht⟩ | ⟨hq, ht⟩
    · simp [ht, hq, hopen]
    · have : ¬ 0 ≤ q.master_fd := by omega
      simp [ht, this]
  refine ⟨t ++ vane_pty_finalizer K (some q), by simp [session, hrun], hcl, by rw [hcl]; rfl,
    ?_⟩
  intro pre post p t1 hops hpre hpid
  subst hops
  obtain ⟨p1, u1, u2, h1, h2, rfl⟩ := run_append_some K pre post pty q t hrun
  rw [hpre] at h1
  simp only [Option.some.injEq, Prod.mk.injEq] at h1
  obtain ⟨rfl, rfl⟩ := h1
  refine ⟨u2 ++ vane_pty_finalizer K (some q), by simp [session, h2], by simp, ?_⟩
  intro c hc
  rcases List.mem_append.1 hc with hc | hc
  · exact run_no_kill K post p q u2 hpid h2 c hc
  · exact finalizer_no_kill K q (run_child_pid K post p q u2 hpid h2) c hc

theorem cleanup_once_witness :
    ∃ tr, session darwin ⟨3, 100⟩
        [Op.write [104] [⟨-1, 35⟩, ⟨1, 0⟩], Op.is_alive 100, Op.close] = some tr ∧
      tr.filter Syscall.isClose = [Syscall.close 3] := by
  obtain ⟨tr, h1, h2, -⟩ := cleanup_once darwin ⟨3, 100⟩
    [Op.write [104] [⟨-1, 35⟩, ⟨1, 0⟩], Op.is_alive 100, Op.close] (by decide) (by decide)
  exact ⟨tr, h1, h2⟩

end Vane
